import Mathlib

/-!
Shallow embedding of `src/app.py` (YouTube Data API v3 Streamlit dashboard).

Time is modelled as an integer count of seconds (UTC instants); the Python
`datetime` arithmetic is exact, so `datetime.now(timezone.utc) -
timedelta(days=days)` becomes `now - 86400 * days`.

The remote API is modelled by its data: a playlist listing is a chained
sequence of pages (each page carries the items the call returns and the
optional `nextPageToken`), and the batched `videos().list` endpoint is a
function from the requested id chunk to the list of returned items.
-/

/-- One playlist item, as consumed by `get_recent_video_ids`:
`item["snippet"]["resourceId"]["videoId"]` and the parsed
`item["snippet"]["publishedAt"]` instant. -/
structure PlaylistItem where
  videoId : String
  publishedAt : Int
deriving DecidableEq, Repr

/-- One `playlistItems().list` response page: `res["items"]` and
`res.get("nextPageToken")`. -/
structure PlaylistPage where
  items : List PlaylistItem
  nextPageToken : Option String
deriving DecidableEq, Repr

/-- The flattened item stream of a chained page sequence. -/
def pagesItems (pages : List PlaylistPage) : List PlaylistItem :=
  (pages.map PlaylistPage.items).flatten

/-- The inner `for item in res["items"]` loop of `get_recent_video_ids`:
walks the page's items in order; on the first item with
`published_at < published_after` it stops (second component `true`,
mirroring the early `return video_ids`), otherwise it appends
the item's video id. -/
def pageScan (cutoff : Int) : List PlaylistItem → List String × Bool
  | [] => ([], false)
  | it :: rest =>
    if it.publishedAt < cutoff then ([], true)
    else
      let r := pageScan cutoff rest
      (it.videoId :: r.1, r.2)

/-- The `while True` pagination loop of `get_recent_video_ids` over the
chained pages: scans the current page; if the scan hit an item older than
the cutoff it returns at once; otherwise it continues to the next page
exactly when `nextPageToken` is present. -/
def pageLoop (cutoff : Int) : List PlaylistPage → List String
  | [] => []
  | p :: rest =>
    let r := pageScan cutoff p.items
    if r.2 then r.1
    else
      match p.nextPageToken with
      | none => r.1
      | some _ => r.1 ++ pageLoop cutoff rest

/-- `get_recent_video_ids(uploads_playlist_id, days)` of `src/app.py`
(lines 49-77): `published_after = now - timedelta(days=days)`; the playlist
identifier is abstracted into the page sequence the API would serve. -/
def get_recent_video_ids (now : Int) (days : Nat) (pages : List PlaylistPage) : List String :=
  pageLoop (now - 86400 * (days : Int)) pages

/-- Number of `playlistItems().list` requests the loop of
`get_recent_video_ids` issues on a chained page sequence: one per iteration
of the `while True` loop. -/
def pagesFetched (cutoff : Int) : List PlaylistPage → Nat
  | [] => 0
  | p :: rest =>
    if (pageScan cutoff p.items).2 then 1
    else
      match p.nextPageToken with
      | none => 1
      | some _ => 1 + pagesFetched cutoff rest

/-- Index (0-based) of the page holding the item with flattened index `k`. -/
def pageOfIndex : List PlaylistPage → Nat → Nat
  | [], _ => 0
  | p :: rest, k => if k < p.items.length then 0 else pageOfIndex rest (k - p.items.length) + 1

/-- A chained page sequence is well formed when every page except the last
carries a continuation token (that token is what makes the next page of the
sequence reachable at all). -/
def chainWF : List PlaylistPage → Bool
  | [] => true
  | [_] => true
  | p :: q :: rest => p.nextPageToken.isSome && chainWF (q :: rest)

/-- Reverse-chronological ordering of an item stream: publication instants
are non-increasing. -/
def revChron : List PlaylistItem → Bool
  | [] => true
  | [_] => true
  | a :: b :: rest => decide (b.publishedAt ≤ a.publishedAt) && revChron (b :: rest)

/- Scan lemmas -/

/-- If every item of the page satisfies the cutoff, the scan keeps them all
and does not stop. -/
theorem pageScan_all (cutoff : Int) (l : List PlaylistItem)
    (h : ∀ it ∈ l, ¬ (it.publishedAt < cutoff)) :
    pageScan cutoff l = (l.map PlaylistItem.videoId, false) := by
  induction l with
  | nil => rfl
  | cons it rest ih =>
    have hit : ¬ (it.publishedAt < cutoff) := h it (by simp)
    have hrest : ∀ x ∈ rest, ¬ (x.publishedAt < cutoff) := fun x hx => h x (by simp [hx])
    simp [pageScan, hit, ih hrest]

/-- If the items split as `front ++ pivot :: back` with every `front` item
within the cutoff and `pivot` strictly older, the scan returns exactly the
ids of `front` and stops. -/
theorem pageScan_stop (cutoff : Int) (front : List PlaylistItem) (pivot : PlaylistItem)
    (back : List PlaylistItem)
    (hfront : ∀ it ∈ front, ¬ (it.publishedAt < cutoff))
    (hpivot : pivot.publishedAt < cutoff) :
    pageScan cutoff (front ++ pivot :: back) = (front.map PlaylistItem.videoId, true) := by
  induction front with
  | nil => simp [pageScan, hpivot]
  | cons it rest ih =>
    have hit : ¬ (it.publishedAt < cutoff) := hfront it (by simp)
    have hrest : ∀ x ∈ rest, ¬ (x.publishedAt < cutoff) := fun x hx => hfront x (by simp [hx])
    simp [pageScan, hit, ih hrest]

/-- Every id kept by the scan comes from an item of the page whose instant
is at or after the cutoff, whatever the order of the items. -/
theorem pageScan_mem (cutoff : Int) (l : List PlaylistItem) :
    ∀ id ∈ (pageScan cutoff l).1,
      ∃ it ∈ l, it.videoId = id ∧ cutoff ≤ it.publishedAt := by
  induction l with
  | nil => simp [pageScan]
  | cons it rest ih =>
    intro id hid
    by_cases hlt : it.publishedAt < cutoff
    · simp [pageScan, hlt] at hid
    · simp only [pageScan, hlt, if_neg hlt] at hid
      rcases List.mem_cons.mp hid with h | h
      · exact ⟨it, by simp, h.symm, le_of_not_lt hlt⟩
      · rcases ih id h with ⟨x, hx, hxid, hxcut⟩
        exact ⟨x, by simp [hx], hxid, hxcut⟩

/- Loop lemmas -/

theorem pagesItems_nil : pagesItems [] = [] := rfl

theorem pagesItems_cons (p : PlaylistPage) (rest : List PlaylistPage) :
    pagesItems (p :: rest) = p.items ++ pagesItems rest := by
  simp [pagesItems]

/-- Every id returned by the pagination loop comes from an item of the page
stream whose publication instant is at or after the cutoff. -/
theorem pageLoop_mem (cutoff : Int) (pages : List PlaylistPage) :
    ∀ id ∈ pageLoop cutoff pages,
      ∃ it ∈ pagesItems pages, it.videoId = id ∧ cutoff ≤ it.publishedAt := by
  induction pages with
  | nil => simp [pageLoop]
  | cons p rest ih =>
    intro id hid
    have hscan := pageScan_mem cutoff p.items
    rw [pagesItems_cons]
    by_cases hstop : (pageScan cutoff p.items).2
    · rw [pageLoop, if_pos hstop] at hid
      rcases hscan id hid with ⟨it, hit, hv, hc⟩
      exact ⟨it, List.mem_append_left _ hit, hv, hc⟩
    · rw [pageLoop, if_neg hstop] at hid
      cases htok : p.nextPageToken with
      | none =>
        rw [htok] at hid
        rcases hscan id hid with ⟨it, hit, hv, hc⟩
        exact ⟨it, List.mem_append_left _ hit, hv, hc⟩
      | some t =>
        rw [htok] at hid
        rcases List.mem_append.mp hid with h | h
        · rcases hscan id h with ⟨it, hit, hv, hc⟩
          exact ⟨it, List.mem_append_left _ hit, hv, hc⟩
        · rcases ih id h with ⟨it, hit, hv, hc⟩
          exact ⟨it, List.mem_append_right _ hit, hv, hc⟩

/-- Behaviour of the loop when the flattened item stream has a first item
strictly older than the cutoff: it returns exactly the ids before that item
and fetches exactly up to the page holding it. -/
theorem pageLoop_first_old (cutoff : Int) :
    ∀ (pages : List PlaylistPage) (front : List PlaylistItem) (pivot : PlaylistItem)
      (back : List PlaylistItem),
      chainWF pages = true →
      pagesItems pages = front ++ pivot :: back →
      (∀ it ∈ front, ¬ (it.publishedAt < cutoff)) →
      pivot.publishedAt < cutoff →
      pageLoop cutoff pages = front.map PlaylistItem.videoId ∧
        pagesFetched cutoff pages = pageOfIndex pages front.length + 1 := by
  intro pages
  induction pages with
  | nil =>
    intro front pivot back _ hflat _ _
    rw [pagesItems_nil] at hflat
    exact absurd hflat.symm (by simp)
  | cons p rest ih =>
    intro front pivot back hchain hflat hfront hpivot
    rw [pagesItems_cons] at hflat
    by_cases hlt : front.length < p.items.length
    · -- the pivot lies inside the head page
      have htake : p.items.take (front.length + 1) = front ++ [pivot] := by
        have h1 : (p.items ++ pagesItems rest).take (front.length + 1)
            = p.items.take (front.length + 1) :=
          List.take_append_of_le_length hlt
        have h2 : (front ++ pivot :: back).take (front.length + 1)
            = front ++ [pivot] := by
          rw [List.take_append_eq_append_take]
          simp
        rw [hflat, h2] at h1
        exact h1.symm
      have hdecomp : p.items = front ++ pivot :: p.items.drop (front.length + 1) := by
        conv_lhs => rw [← List.take_append_drop (front.length + 1) p.items]
        rw [htake]
        simp
      have hscan : pageScan cutoff p.items = (front.map PlaylistItem.videoId, true) := by
        rw [hdecomp]
        exact pageScan_stop cutoff front pivot _ hfront hpivot
      constructor
      · rw [pageLoop]
        simp [hscan]
      · rw [pagesFetched, pageOfIndex]
        simp [hscan, hlt]
    · -- the whole head page is within the window; the pivot is further on
      have hge : p.items.length ≤ front.length := le_of_not_lt hlt
      have hpre : front.take p.items.length = p.items := by
        have h1 : (p.items ++ pagesItems rest).take p.items.length = p.items :=
          List.take_left _ _
        have h2 : (front ++ pivot :: back).take p.items.length
            = front.take p.items.length :=
          List.take_append_of_le_length hge
        rw [hflat, h2] at h1
        exact h1
      have hsplit : front = p.items ++ front.drop p.items.length := by
        conv_lhs => rw [← List.take_append_drop p.items.length front]
        rw [hpre]
      have hrest_flat : pagesItems rest = front.drop p.items.length ++ pivot :: back := by
        have hx : p.items ++ pagesItems rest =
            p.items ++ (front.drop p.items.length ++ pivot :: back) := by
          rw [hflat]
          conv_lhs => rw [hsplit]
          simp
        exact List.append_cancel_left hx
      have hrest_ne : rest ≠ [] := by
        intro hnil
        rw [hnil, pagesItems_nil] at hrest_flat
        exact absurd hrest_flat.symm (by simp)
      obtain ⟨q, rs, hqrs⟩ : ∃ q rs, rest = q :: rs := by
        cases rest with
        | nil => exact absurd rfl hrest_ne
        | cons q rs => exact ⟨q, rs, rfl⟩
      have hchain2 : p.nextPageToken.isSome = true ∧ chainWF rest = true := by
        rw [hqrs] at hchain ⊢
        rw [chainWF] at hchain
        simpa using hchain
      have htok : p.nextPageToken.isSome := hchain2.1
      have hchain_rest : chainWF rest = true := hchain2.2
      obtain ⟨t, ht⟩ := Option.isSome_iff_exists.mp htok
      have hall : ∀ it ∈ p.items, ¬ (it.publishedAt < cutoff) := by
        intro it hit
        exact hfront it (by rw [hsplit]; exact List.mem_append_left _ hit)
      have hfront2 : ∀ it ∈ front.drop p.items.length, ¬ (it.publishedAt < cutoff) := by
        intro it hit
        exact hfront it (by rw [hsplit]; exact List.mem_append_right _ hit)
      have hscan : pageScan cutoff p.items = (p.items.map PlaylistItem.videoId, false) :=
        pageScan_all cutoff p.items hall
      obtain ⟨ihres, ihcount⟩ :=
        ih (front.drop p.items.length) pivot back hchain_rest hrest_flat hfront2 hpivot
      constructor
      · rw [pageLoop]
        simp only [hscan, ht]
        rw [ihres]
        conv_rhs => rw [hsplit]
        simp
      · rw [pagesFetched, pageOfIndex]
        simp [hscan, ht, if_neg hlt, ihcount, List.length_drop]
        omega

/- Statistics aggregator (`get_video_stats`, src/app.py lines 82-107) -/

/-- One item of a `videos().list` response: `item["id"]`,
`item["snippet"]["title"]`, `item["statistics"].get("viewCount", 0)` /
`.get("likeCount", 0)` (the counts may be absent, hence `Option`), and
`item["snippet"]["publishedAt"]`. -/
structure StatItem where
  id : String
  title : String
  viewCount : Option Nat
  likeCount : Option Nat
  publishedAt : String
deriving DecidableEq, Repr

/-- One row appended to `rows` in `get_video_stats`. -/
structure VideoRow where
  video_id : String
  title : String
  view_count : Nat
  like_count : Nat
  published_at : String
deriving DecidableEq, Repr

/-- The dictionary appended per response item in `get_video_stats`:
missing view / like counts default to 0 via `.get(..., 0)`. -/
def mkRow (item : StatItem) : VideoRow :=
  ⟨item.id, item.title, item.viewCount.getD 0, item.likeCount.getD 0, item.publishedAt⟩

/-- The chunking of `for i in range(0, len(video_ids), 50): chunk =
video_ids[i:i+50]`: the slice starting at each multiple of 50 below the
length, of at most 50 ids. -/
def sliceChunks (video_ids : List String) : List (List String) :=
  ((List.range video_ids.length).filter (fun i => i % 50 = 0)).map
    (fun i => (video_ids.drop i).take 50)

/-- The batched `videos().list` requests `get_video_stats` issues: none at
all on an empty input (the early `return pd.DataFrame()`), otherwise one
per 50-id chunk. -/
def get_video_stats_calls (video_ids : List String) : List (List String) :=
  if video_ids.isEmpty then [] else sliceChunks video_ids

/-- `get_video_stats(video_ids)` of `src/app.py` (lines 82-107): `stats`
maps each requested id chunk to the items of the response; the rows of all
chunks are concatenated in order. -/
def get_video_stats (stats : List String → List StatItem) (video_ids : List String) :
    List VideoRow :=
  if video_ids.isEmpty then []
  else ((sliceChunks video_ids).map (fun chunk => (stats chunk).map mkRow)).flatten

/- Like-rate derivation (src/app.py line 148) -/

/-- Value space of the pandas float64 `like_rate` column. -/
inductive PandasFloat
  | val (q : ℚ)
  | posInf
  | nan
deriving DecidableEq, Repr

/-- `df["like_count"] / df["view_count"]` element-wise, per pandas / numpy /
IEEE 754 true-division semantics: dividing by zero raises no exception and
yields +inf for a positive numerator and NaN for 0/0; a finite quotient is
modelled exactly as a rational. -/
def seriesDiv (like_count view_count : Nat) : PandasFloat :=
  if view_count = 0 then
    if like_count = 0 then PandasFloat.nan else PandasFloat.posInf
  else PandasFloat.val ((like_count : ℚ) / (view_count : ℚ))

/-- The `df["like_rate"] = df["like_count"] / df["view_count"]` column
assignment: each row paired with its derived like-rate. -/
def add_like_rate (rows : List VideoRow) : List (VideoRow × PandasFloat) :=
  rows.map (fun r => (r, seriesDiv r.like_count r.view_count))

/- Channel lookup (`get_uploads_playlist_id`, src/app.py lines 33-43) -/

/-- One item of a `channels().list` response, reduced to the field the code
reads: `item["contentDetails"]["relatedPlaylists"]["uploads"]`. -/
structure ChannelItem where
  uploads : String
deriving DecidableEq, Repr

/-- A `channels().list` response: the `"items"` key may be absent (`none`)
or hold a (possibly empty) list. -/
structure ChannelListResponse where
  items : Option (List ChannelItem)
deriving DecidableEq, Repr

/-- `get_uploads_playlist_id(channel_id)` of `src/app.py` (lines 33-43):
raises `ValueError("チャンネルIDが不正です")` when `"items"` is absent or
empty, otherwise returns `res["items"][0][...]["uploads"]`. -/
def get_uploads_playlist_id (res : ChannelListResponse) : Except String String :=
  match res.items with
  | none => Except.error "チャンネルIDが不正です"
  | some [] => Except.error "チャンネルIDが不正です"
  | some (it :: _) => Except.ok it.uploads

/- The fetch sequence of the button handler (src/app.py lines 127-130) -/

/-- The three remote endpoints the fetch sequence can hit. -/
inductive RemoteCall
  | channelsList
  | playlistItemsList
  | videosList
deriving DecidableEq, Repr

/-- The remote data a query runs against: the channel-lookup response, the
chained playlist pages of the uploads playlist, and the statistics
responses per requested chunk. -/
structure Env where
  channelRes : ChannelListResponse
  pages : List PlaylistPage
  stats : List String → List StatItem

/-- The fetch sequence under the `st.button` handler: resolve the uploads
playlist id, then discover recent video ids, then aggregate statistics; any
raised error aborts the sequence (the top-level `except` shows it).  The
second component is the trace of remote calls issued, in order. -/
def runQuery (env : Env) (now : Int) (days : Nat) :
    Except String (List VideoRow) × List RemoteCall :=
  match get_uploads_playlist_id env.channelRes with
  | Except.error e => (Except.error e, [RemoteCall.channelsList])
  | Except.ok _ =>
    let ids := get_recent_video_ids now days env.pages
    (Except.ok (get_video_stats env.stats ids),
      RemoteCall.channelsList ::
        (List.replicate (pagesFetched (now - 86400 * (days : Int)) env.pages)
            RemoteCall.playlistItemsList ++
          List.replicate (get_video_stats_calls ids).length RemoteCall.videosList))

/- Claim theorems -/

/-- C1: if playlist pages hold items in reverse-chronological order and the
Nth flattened item (here `pivot`, preceded by the N-1 items `front`) is the
first strictly older than the cutoff `now - days`, then
`get_recent_video_ids` returns exactly the video ids of the first N-1 items
in order, and fetches no page beyond the one containing the Nth item; with
`front = []` this is the edge case where the very first item is already
outside the window and the empty sequence is returned without error. -/
theorem recent_ids_stop_at_first_old (now : Int) (days : Nat) (pages : List PlaylistPage)
    (front : List PlaylistItem) (pivot : PlaylistItem) (back : List PlaylistItem)
    (hchain : chainWF pages = true)
    (_hrev : revChron (pagesItems pages) = true)
    (hflat : pagesItems pages = front ++ pivot :: back)
    (hfront : ∀ it ∈ front, ¬ (it.publishedAt < now - 86400 * (days : Int)))
    (hpivot : pivot.publishedAt < now - 86400 * (days : Int)) :
    get_recent_video_ids now days pages = front.map PlaylistItem.videoId ∧
      pagesFetched (now - 86400 * (days : Int)) pages = pageOfIndex pages front.length + 1 :=
  pageLoop_first_old _ pages front pivot back hchain hflat hfront hpivot

def w1pages : List PlaylistPage :=
  [⟨[⟨"a", 100000⟩, ⟨"b", 90000⟩], some "t"⟩, ⟨[⟨"c", 50000⟩], none⟩]

def w1front : List PlaylistItem := [⟨"a", 100000⟩, ⟨"b", 90000⟩]

theorem recent_ids_stop_at_first_old_witness :
    get_recent_video_ids 172800 1 w1pages = w1front.map PlaylistItem.videoId ∧
      pagesFetched (172800 - 86400 * ((1 : Nat) : Int)) w1pages =
        pageOfIndex w1pages w1front.length + 1 :=
  recent_ids_stop_at_first_old 172800 1 w1pages w1front ⟨"c", 50000⟩ []
    (by decide) (by decide) (by decide) (by decide) (by decide)

/-- C2: for every window of at least one day, every video id returned by
`get_recent_video_ids` belongs to an item of the page stream whose
publication instant is not strictly before the cutoff `now - days`, the
cutoff being fixed once from the `now` the call starts with. -/
theorem recent_ids_within_window (now : Int) (days : Nat) (pages : List PlaylistPage)
    (_hdays : 1 ≤ days) :
    ∀ id ∈ get_recent_video_ids now days pages,
      ∃ it ∈ pagesItems pages,
        it.videoId = id ∧ now - 86400 * (days : Int) ≤ it.publishedAt :=
  fun id hid => pageLoop_mem _ pages id hid

def w2pages : List PlaylistPage := [⟨[⟨"a", 100000⟩], none⟩]

theorem recent_ids_within_window_witness :
    ∃ it ∈ pagesItems w2pages,
      it.videoId = "a" ∧ (172800 : Int) - 86400 * ((1 : Nat) : Int) ≤ it.publishedAt :=
  recent_ids_within_window 172800 1 w2pages (by decide) "a" (by decide)

/-- C3 counterexample: the code checks only `published_at < published_after`
and never compares against `now`, so an item whose publication instant lies
strictly after `now` (here 100 > 0) is returned; the claimed upper bound of
the interval is not enforced. -/
theorem recent_ids_future_item_returned :
    "v1" ∈ get_recent_video_ids 0 7 [⟨[⟨"v1", 100⟩], none⟩] ∧
      ∀ it ∈ pagesItems [⟨[⟨"v1", 100⟩], none⟩],
        it.videoId = "v1" → (0 : Int) < it.publishedAt := by
  decide

/-- C3 amended: every identifier returned by `get_recent_video_ids`
corresponds to an item whose publication instant is at least `now - days`;
the code applies no upper bound at `now`, so items with instants after
`now` can also be returned. -/
theorem recent_ids_lower_bound_only (now : Int) (days : Nat) (pages : List PlaylistPage) :
    ∀ id ∈ get_recent_video_ids now days pages,
      ∃ it ∈ pagesItems pages,
        it.videoId = id ∧ now - 86400 * (days : Int) ≤ it.publishedAt :=
  fun id hid => pageLoop_mem _ pages id hid

theorem recent_ids_lower_bound_only_witness :
    ∃ it ∈ pagesItems [PlaylistPage.mk [PlaylistItem.mk "v1" 100] none],
      it.videoId = "v1" ∧ (0 : Int) - 86400 * ((7 : Nat) : Int) ≤ it.publishedAt :=
  recent_ids_lower_bound_only 0 7 [PlaylistPage.mk [PlaylistItem.mk "v1" 100] none]
    "v1" (by decide)

/-- C9: on a finite chained page sequence whose last page carries no
continuation token, the pagination loop of `get_recent_video_ids`
terminates after fetching a prefix `done` of the pages, and it ends exactly
at the right place: the last fetched page either triggered the early exit
or carried no continuation token, and no earlier fetched page did either. -/
theorem recent_ids_loop_termination (cutoff : Int) (pages : List PlaylistPage)
    (h : pages ≠ [])
    (hlast : (pages.getLast h).nextPageToken = none) :
    ∃ done later, pages = done ++ later ∧
      done.length = pagesFetched cutoff pages ∧
      ∃ hd : done ≠ [],
        ((pageScan cutoff ((done.getLast hd).items)).2 = true ∨
            (done.getLast hd).nextPageToken = none) ∧
          ∀ q ∈ done.dropLast,
            (pageScan cutoff q.items).2 = false ∧ q.nextPageToken ≠ none := by
  induction pages with
  | nil => exact absurd rfl h
  | cons p rest ih =>
    by_cases hstop : (pageScan cutoff p.items).2
    · refine ⟨[p], rest, rfl, ?_, by simp, Or.inl hstop, by simp⟩
      rw [pagesFetched, if_pos hstop]
      rfl
    · cases htok : p.nextPageToken with
      | none =>
        refine ⟨[p], rest, rfl, ?_, by simp, Or.inr htok, by simp⟩
        rw [pagesFetched, if_neg hstop, htok]
        rfl
      | some t =>
        have hrest_ne : rest ≠ [] := by
          intro hnil
          subst hnil
          rw [List.getLast_singleton] at hlast
          rw [htok] at hlast
          exact Option.noConfusion hlast
        have hlast' : (rest.getLast hrest_ne).nextPageToken = none := by
          have hx : (p :: rest).getLast h = rest.getLast hrest_ne :=
            List.getLast_cons hrest_ne
          rw [hx] at hlast
          exact hlast
        obtain ⟨done, later, heq, hlen, hd, hreason, hprev⟩ := ih hrest_ne hlast'
        refine ⟨p :: done, later, by simp [heq], ?_, by simp, ?_, ?_⟩
        · rw [pagesFetched, if_neg hstop, htok]
          simp [← hlen]
          omega
        · rw [List.getLast_cons hd]
          exact hreason
        · intro q hq
          obtain ⟨d, ds, hds⟩ : ∃ d ds, done = d :: ds := by
            cases done with
            | nil => exact absurd rfl hd
            | cons d ds => exact ⟨d, ds, rfl⟩
          rw [hds, List.dropLast_cons₂] at hq
          rcases List.mem_cons.mp hq with hqp | hqd
          · subst hqp
            refine ⟨by simpa using hstop, by rw [htok]; exact Option.noConfusion⟩
          · rw [hds] at hprev
            exact hprev q hqd

def w9pages : List PlaylistPage := [⟨[], some "t"⟩, ⟨[⟨"z", 5⟩], none⟩]

theorem recent_ids_loop_termination_witness :
    ∃ done later, w9pages = done ++ later ∧
      done.length = pagesFetched 0 w9pages ∧
      ∃ hd : done ≠ [],
        ((pageScan 0 ((done.getLast hd).items)).2 = true ∨
            (done.getLast hd).nextPageToken = none) ∧
          ∀ q ∈ done.dropLast,
            (pageScan 0 q.items).2 = false ∧ q.nextPageToken ≠ none :=
  recent_ids_loop_termination 0 w9pages (by decide) (by decide)

/-- C4 counterexample: `get_video_stats` appends one row per response item
and performs no merge, so when the upstream returns an item with id `"a"`
in each of the two batches of a 51-id input, the table holds two rows for
the identifier `"a"` and the claimed per-identifier uniqueness fails. -/
theorem video_stats_duplicate_rows :
    (get_video_stats (fun _ => [⟨"a", "t", some 1, some 2, "p"⟩])
        (List.replicate 51 "x")).map VideoRow.video_id = ["a", "a"] ∧
      ¬ ((get_video_stats (fun _ => [⟨"a", "t", some 1, some 2, "p"⟩])
          (List.replicate 51 "x")).map VideoRow.video_id).Nodup := by
  decide

/-- C4 amended: the Result Table is unique by identifier exactly when the
combined batch responses mention each identifier at most once; the code
does no deduplicating merge, so a retried or duplicated upstream batch that
repeats an identifier yields one row per occurrence. -/
theorem video_stats_nodup_of_nodup_responses (stats : List String → List StatItem)
    (video_ids : List String)
    (h : (((get_video_stats_calls video_ids).map
        (fun chunk => (stats chunk).map StatItem.id)).flatten).Nodup) :
    ((get_video_stats stats video_ids).map VideoRow.video_id).Nodup := by
  by_cases he : video_ids.isEmpty
  · rw [get_video_stats, if_pos he]
    simp
  · rw [get_video_stats, if_neg he]
    rw [get_video_stats_calls, if_neg he] at h
    rw [List.map_flatten]
    have hmaps :
        (List.map (List.map VideoRow.video_id)
            ((sliceChunks video_ids).map (fun chunk => (stats chunk).map mkRow))) =
          (sliceChunks video_ids).map (fun chunk => (stats chunk).map StatItem.id) := by
      simp [List.map_map, Function.comp, mkRow]
    rw [hmaps]
    exact h

theorem video_stats_nodup_of_nodup_responses_witness :
    ((get_video_stats (fun chunk => chunk.map (fun s => ⟨s, "t", none, none, "p"⟩))
        ["a", "b"]).map VideoRow.video_id).Nodup :=
  video_stats_nodup_of_nodup_responses
    (fun chunk => chunk.map (fun s => ⟨s, "t", none, none, "p"⟩)) ["a", "b"] (by decide)

/-- C5: for a row with `view_count = 0`, the derived like-rate raises
nothing (the embedded pandas division is a total function) and resolves to
a defined sentinel value, +inf or NaN, rather than failing. -/
theorem like_rate_zero_view_sentinel (rows : List VideoRow) (r : VideoRow) (lr : PandasFloat)
    (hmem : (r, lr) ∈ add_like_rate rows) (hzero : r.view_count = 0) :
    lr = PandasFloat.posInf ∨ lr = PandasFloat.nan := by
  rcases List.mem_map.mp hmem with ⟨x, _hx, heq⟩
  cases heq
  by_cases hl : r.like_count = 0
  · right
    simp [seriesDiv, hzero, hl]
  · left
    simp [seriesDiv, hzero, hl]

theorem like_rate_zero_view_sentinel_witness :
    seriesDiv 3 0 = PandasFloat.posInf ∨ seriesDiv 3 0 = PandasFloat.nan :=
  like_rate_zero_view_sentinel [⟨"v", "t", 0, 3, "p"⟩] ⟨"v", "t", 0, 3, "p"⟩
    (seriesDiv 3 0) (by decide) rfl

/-- C6: when the channel lookup reports zero matching items (the `items`
key absent or the list empty), `get_uploads_playlist_id` raises the
invalid-channel `ValueError`, the whole query fails with that error, and
the remote-call trace holds no playlist-items and no video-statistics
call. -/
theorem invalid_channel_error_before_fetch (env : Env) (now : Int) (days : Nat)
    (h : env.channelRes.items = none ∨ env.channelRes.items = some []) :
    get_uploads_playlist_id env.channelRes = Except.error "チャンネルIDが不正です" ∧
      (runQuery env now days).1 = Except.error "チャンネルIDが不正です" ∧
      RemoteCall.playlistItemsList ∉ (runQuery env now days).2 ∧
      RemoteCall.videosList ∉ (runQuery env now days).2 := by
  have herr : get_uploads_playlist_id env.channelRes =
      Except.error "チャンネルIDが不正です" := by
    rcases h with h | h <;> simp [get_uploads_playlist_id, h]
  refine ⟨herr, ?_, ?_, ?_⟩ <;> simp [runQuery, herr]

def w6env : Env := ⟨⟨some []⟩, [], fun _ => []⟩

theorem invalid_channel_error_before_fetch_witness :
    get_uploads_playlist_id w6env.channelRes = Except.error "チャンネルIDが不正です" ∧
      (runQuery w6env 0 7).1 = Except.error "チャンネルIDが不正です" ∧
      RemoteCall.playlistItemsList ∉ (runQuery w6env 0 7).2 ∧
      RemoteCall.videosList ∉ (runQuery w6env 0 7).2 :=
  invalid_channel_error_before_fetch w6env 0 7 (Or.inr rfl)

/-- C7: on an empty identifier sequence `get_video_stats` returns the empty
table and the list of batched statistics requests it issues is empty. -/
theorem video_stats_empty_input :
    (∀ stats : List String → List StatItem, get_video_stats stats [] = []) ∧
      get_video_stats_calls [] = [] :=
  ⟨fun _ => rfl, rfl⟩

/-- C8: on exactly 120 identifiers `get_video_stats` issues exactly three
batched statistics calls, whose batches are the consecutive input slices of
sizes 50, 50 and 20 in input order (together they recompose the input). -/
theorem video_stats_120_ids_three_batches (video_ids : List String)
    (h : video_ids.length = 120) :
    get_video_stats_calls video_ids =
        [video_ids.take 50, (video_ids.drop 50).take 50, (video_ids.drop 100).take 50] ∧
      (get_video_stats_calls video_ids).length = 3 ∧
      (video_ids.take 50).length = 50 ∧
      ((video_ids.drop 50).take 50).length = 50 ∧
      ((video_ids.drop 100).take 50).length = 20 ∧
      video_ids.take 50 ++ ((video_ids.drop 50).take 50 ++ (video_ids.drop 100).take 50) =
        video_ids := by
  have hne : video_ids.isEmpty = false := by
    rw [List.isEmpty_eq_false]
    intro hnil
    rw [hnil] at h
    exact absurd h (by decide)
  have hcalls : get_video_stats_calls video_ids =
      [video_ids.take 50, (video_ids.drop 50).take 50, (video_ids.drop 100).take 50] := by
    rw [get_video_stats_calls, if_neg (by simp [hne]), sliceChunks, h]
    have hfilter : (List.range 120).filter (fun i => i % 50 = 0) = [0, 50, 100] := by
      decide
    rw [hfilter]
    simp
  have hd100 : (video_ids.drop 100).take 50 = video_ids.drop 100 :=
    List.take_of_length_le (by simp [h])
  refine ⟨hcalls, by rw [hcalls]; rfl, by simp [h], by simp [h], by simp [h], ?_⟩
  rw [hd100]
  have hdd : List.drop 100 video_ids = List.drop 50 (List.drop 50 video_ids) := by
    rw [List.drop_drop]
  rw [hdd, List.take_append_drop, List.take_append_drop]

def w8ids : List String := List.replicate 120 "x"

theorem video_stats_120_ids_three_batches_witness :
    get_video_stats_calls w8ids =
        [w8ids.take 50, (w8ids.drop 50).take 50, (w8ids.drop 100).take 50] ∧
      (get_video_stats_calls w8ids).length = 3 ∧
      (w8ids.take 50).length = 50 ∧
      ((w8ids.drop 50).take 50).length = 50 ∧
      ((w8ids.drop 100).take 50).length = 20 ∧
      w8ids.take 50 ++ ((w8ids.drop 50).take 50 ++ (w8ids.drop 100).take 50) = w8ids :=
  video_stats_120_ids_three_batches w8ids (by decide)

/-- C10: on a non-empty identifier sequence for which every issued batch
returns zero items, `get_video_stats` returns the empty table without
raising — the very result an empty input produces, so the caller's
`df.empty` check treats the query as the non-error no-data state. -/
theorem video_stats_all_empty_batches (stats : List String → List StatItem)
    (video_ids : List String) (hne : video_ids ≠ [])
    (h : ∀ chunk ∈ get_video_stats_calls video_ids, stats chunk = []) :
    get_video_stats stats video_ids = [] ∧ get_video_stats stats [] = [] := by
  have he : video_ids.isEmpty = false := List.isEmpty_eq_false.mpr hne
  refine ⟨?_, rfl⟩
  rw [get_video_stats, if_neg (by simp [he])]
  rw [List.flatten_eq_nil_iff]
  intro l hl
  rcases List.mem_map.mp hl with ⟨chunk, hchunk, rfl⟩
  have hc : stats chunk = [] := by
    apply h
    rw [get_video_stats_calls, if_neg (by simp [he])]
    exact hchunk
  rw [hc]
  rfl

theorem video_stats_all_empty_batches_witness :
    get_video_stats (fun _ => []) ["a", "b"] = [] ∧
      get_video_stats (fun _ => []) [] = [] :=
  video_stats_all_empty_batches (fun _ => []) ["a", "b"] (by decide) (by decide)
